import Mathlib

/-!
# Verification of the music downloader orchestration engine

A shallow embedding of the repository's core (src/db/db.py and
src/handlers/user_menu.py) together with proofs settling the frozen
claims about the engine.

The cache store (class `Music` in src/db/db.py) is a sqlite table
`music(id INTEGER PRIMARY KEY AUTOINCREMENT, video_id TEXT, file_id TEXT)`.
Rows are returned in rowid (= insertion) order, so the table is embedded
as a list of `(video_id, file_id)` pairs in insertion order.
-/

namespace MusicBot

/-- The `music` table: rows `(video_id, file_id)` in rowid order.
There is no UNIQUE constraint on `video_id` in the schema. -/
abbrev Db := List (String × String)

/-- `Music.get_file_id`: `SELECT file_id FROM music WHERE video_id=? ... fetchone()`
returns the file_id of the first matching row, or `None`. -/
def get_file_id (db : Db) (v : String) : Option String :=
  (db.find? (fun r => r.1 = v)).map (fun r => r.2)

/-- `Music.add_data`: `INSERT INTO music(video_id, file_id) VALUES(?, ?)` —
a plain insert appending a fresh row (AUTOINCREMENT id), not an upsert. -/
def add_data (db : Db) (v f : String) : Db := db ++ [(v, f)]

/-- `Music.remove_data`: `DELETE FROM music WHERE video_id=?` removes every
row whose `video_id` matches. -/
def remove_data (db : Db) (v : String) : Db := db.filter (fun r => r.1 ≠ v)

/-- The rows of the table holding a given `video_id`. -/
def rowsFor (db : Db) (v : String) : Db := db.filter (fun r => r.1 = v)

theorem find?_append_of_some {α : Type} {p : α → Bool} {l : List α} {x : α}
    (h : l.find? p = some x) (l2 : List α) : (l ++ l2).find? p = some x := by
  induction l with
  | nil => simp [List.find?] at h
  | cons a as ih =>
    by_cases ha : p a
    · rw [List.find?_cons_of_pos _ ha] at h
      rw [List.cons_append, List.find?_cons_of_pos _ ha]; exact h
    · rw [List.find?_cons_of_neg _ (by simpa using ha)] at h
      rw [List.cons_append, List.find?_cons_of_neg _ (by simpa using ha)]
      exact ih h

theorem get_file_id_append_of_some {db : Db} {v r : String}
    (h : get_file_id db v = some r) (rows : Db) :
    get_file_id (db ++ rows) v = some r := by
  unfold get_file_id at h ⊢
  cases hf : db.find? (fun r => r.1 = v) with
  | none => rw [hf] at h; simp at h
  | some x =>
    rw [hf] at h
    rw [find?_append_of_some hf rows]
    exact h

theorem get_file_id_add_data_of_some {db : Db} {v r : String}
    (h : get_file_id db v = some r) (w f : String) :
    get_file_id (add_data db w f) v = some r :=
  get_file_id_append_of_some h [(w, f)]

theorem get_file_id_add_data_other {db : Db} {v w : String}
    (hvw : w ≠ v) (f : String) :
    get_file_id (add_data db w f) v = get_file_id db v := by
  unfold get_file_id add_data
  induction db with
  | nil => simp [List.find?, hvw]
  | cons a as ih =>
    by_cases ha : a.1 = v
    · rw [List.cons_append, List.find?_cons_of_pos _ (by simpa using ha),
        List.find?_cons_of_pos _ (by simpa using ha)]
    · rw [List.cons_append, List.find?_cons_of_neg _ (by simpa using ha),
        List.find?_cons_of_neg _ (by simpa using ha)]
      exact ih

/-- **C8 counterexample.** The claim says the write operation is an upsert
keyed by `content_id`, never producing two rows for the same `content_id`.
But `Music.add_data` is a plain `INSERT` and the schema has no UNIQUE
constraint on `video_id`: inserting `("X","r1")` and then `("X","r2")`
leaves two rows for `video_id = "X"`. -/
theorem add_data_two_rows_counterexample :
    (rowsFor (add_data (add_data [] "X" "r1") "X" "r2") "X").length = 2 := by
  decide

/-- **C8 (amended).** The store is append-only: `add_data` is a plain insert,
not an upsert, so several rows for the same `video_id` can accumulate.
The read side nevertheless behaves as a single-valued map: `get_file_id`
returns the `file_id` of the first-inserted matching row, so after an
insert the id resolves to the previously stored reference if one existed,
and to the new one otherwise. -/
theorem add_data_first_write_wins (db : Db) (v f : String) :
    get_file_id (add_data db v f) v = some ((get_file_id db v).getD f) := by
  unfold get_file_id add_data
  induction db with
  | nil => simp [List.find?]
  | cons a as ih =>
    by_cases ha : a.1 = v
    · rw [List.cons_append, List.find?_cons_of_pos _ (by simpa using ha),
        List.find?_cons_of_pos _ (by simpa using ha)]
      simp
    · rw [List.cons_append, List.find?_cons_of_neg _ (by simpa using ha),
        List.find?_cons_of_neg _ (by simpa using ha)]
      exact ih

/-- **C10.** `Music.remove_data(v)` deletes every row whose `video_id`
equals `v` (even if several had accumulated), hence a subsequent
`Music.get_file_id(v)` returns `None`. -/
theorem remove_data_removes_all (db : Db) (v : String) :
    get_file_id (remove_data db v) v = none ∧ rowsFor (remove_data db v) v = [] := by
  constructor
  · unfold get_file_id remove_data
    induction db with
    | nil => simp [List.find?]
    | cons a as ih =>
      by_cases ha : a.1 = v
      · rw [List.filter_cons_of_neg (by simpa using ha)]
        exact ih
      · rw [List.filter_cons_of_pos (by simpa using ha),
          List.find?_cons_of_neg _ (by simpa using ha)]
        exact ih
  · unfold rowsFor remove_data
    induction db with
    | nil => simp
    | cons a as ih =>
      by_cases ha : a.1 = v
      · rw [List.filter_cons_of_neg (by simpa using ha)]
        exact ih
      · rw [List.filter_cons_of_pos (by simpa using ha),
          List.filter_cons_of_neg (by simpa using ha)]
        exact ih

/-!
## `_remove_duplicate_artists` (src/handlers/user_menu.py, lines 69-93)

Python strings are embedded as lists of code points (`List Nat`); the
case-mapping functions are embedded on the ASCII fragment, which is the
fragment `str.lower` / `str.title` act on for the Latin alphabet.
-/

/-- A Python string as a list of code points. -/
abbrev PStr := List Nat

/-- ASCII fragment of Python `str.lower` on one code point. -/
def lowC (c : Nat) : Nat := if 65 ≤ c ∧ c ≤ 90 then c + 32 else c

/-- ASCII fragment of the uppercase mapping used by Python `str.title`. -/
def upC (c : Nat) : Nat := if 97 ≤ c ∧ c ≤ 122 then c - 32 else c

/-- A cased (letter) code point in the ASCII fragment. -/
def isCased (c : Nat) : Bool := (65 ≤ c && c ≤ 90) || (97 ≤ c && c ≤ 122)

/-- Python whitespace stripped by `str.strip()` (ASCII fragment). -/
def isPySpace (c : Nat) : Bool := c = 32 || c = 9 || c = 10 || c = 13 || c = 11 || c = 12

/-- `str.strip()`: drop whitespace from both ends. -/
def pyStrip (s : PStr) : PStr :=
  ((s.dropWhile isPySpace).reverse.dropWhile isPySpace).reverse

/-- Does `s` start with `pat`? -/
def startsWith : PStr → PStr → Bool
  | _, [] => true
  | [], _ :: _ => false
  | c :: cs, p :: ps => c = p && startsWith cs ps

/-- `str.replace(pat, rep)`: leftmost, non-overlapping replacement.
The fuel argument is bounded by the length of the string; each step
consumes at least one code point, so `s.length` fuel always suffices. -/
def pyReplaceF (pat rep : PStr) : Nat → PStr → PStr
  | _, [] => []
  | 0, s => s
  | fuel + 1, c :: rest =>
    if pat ≠ [] && startsWith (c :: rest) pat then
      rep ++ pyReplaceF pat rep fuel ((c :: rest).drop pat.length)
    else
      c :: pyReplaceF pat rep fuel rest

/-- `str.replace(pat, rep)` for a non-empty pattern. -/
def pyReplace (pat rep s : PStr) : PStr := pyReplaceF pat rep s.length s

/-- `str.split(',')`: split on every comma, keeping empty pieces. -/
def pySplit : PStr → List PStr
  | [] => [[]]
  | c :: rest =>
    if c = 44 then [] :: pySplit rest
    else
      match pySplit rest with
      | [] => [[c]]
      | p :: ps => (c :: p) :: ps

/-- Worker for Python `str.title`: a letter is uppercased when the previous
code point is not a letter, lowercased otherwise. -/
def pyTitleGo : Bool → PStr → PStr
  | _, [] => []
  | prevCased, c :: rest =>
    (if isCased c then (if prevCased then lowC c else upC c) else c)
      :: pyTitleGo (isCased c) rest

/-- Python `str.title()`. -/
def pyTitle (s : PStr) : PStr := pyTitleGo false s

/-- `' and '` -/
def strAnd : PStr := [32, 97, 110, 100, 32]

/-- `' & '` -/
def strAmp : PStr := [32, 38, 32]

/-- `artist_string.replace(' and ', ',').replace(' & ', ',')` -/
def normalizeDelims (s : PStr) : PStr := pyReplace strAmp [44] (pyReplace strAnd [44] s)

/-- `[a.strip().lower() for a in normalized_string.split(',') if a.strip()]` -/
def artistsOf (s : PStr) : List PStr :=
  ((pySplit (normalizeDelims s)).filter (fun a => pyStrip a ≠ [])).map
    (fun a => (pyStrip a).map lowC)

/-- The `for artist_name in artists` loop: `seen` is the set of lowercased
names already kept (modelled as a list queried by membership), and each
newly seen name is appended title-cased. -/
def dedupGo (seen : List PStr) : List PStr → List PStr
  | [] => []
  | a :: rest =>
    if a ∈ seen then dedupGo seen rest
    else pyTitle a :: dedupGo (a :: seen) rest

/-- `", ".join(unique_artists)` -/
def joinComma : List PStr → PStr
  | [] => []
  | [a] => a
  | a :: b :: rest => a ++ [44, 32] ++ joinComma (b :: rest)

/-- `_remove_duplicate_artists` (lines 69-93). -/
def removeDuplicateArtists (s : PStr) : PStr :=
  if s = [] then [] else joinComma (dedupGo [] (artistsOf s))

/-- Specification-side first-occurrence deduplication: keep the first
occurrence of each name, in order. -/
def firstDedup : List PStr → List PStr
  | [] => []
  | a :: l => a :: firstDedup (l.filter (fun b => b ≠ a))
termination_by l => l.length
decreasing_by
  simp only [List.length_cons]
  exact Nat.lt_succ_of_le (List.length_filter_le _ _)

/-- A string all of whose code points are fixed by lowercasing. -/
def IsLowerStr (a : PStr) : Prop := ∀ c ∈ a, lowC c = c

theorem lowC_lowC (c : Nat) : lowC (lowC c) = lowC c := by
  unfold lowC
  split
  · next h => split <;> omega
  · rfl

theorem lowC_upC (c : Nat) : lowC (upC c) = lowC c := by
  unfold lowC upC
  by_cases h : 97 ≤ c ∧ c ≤ 122
  · rw [if_pos h, if_pos (show 65 ≤ c - 32 ∧ c - 32 ≤ 90 by omega),
      if_neg (show ¬(65 ≤ c ∧ c ≤ 90) by omega)]
    omega
  · rw [if_neg h]

theorem map_lowC_pyTitleGo {a : PStr} (ha : IsLowerStr a) (b : Bool) :
    (pyTitleGo b a).map lowC = a := by
  induction a generalizing b with
  | nil => rfl
  | cons c rest ih =>
    have hc : lowC c = c := ha c (by simp)
    have hrest : IsLowerStr rest := fun x hx => ha x (by simp [hx])
    simp only [pyTitleGo, List.map_cons]
    rw [ih hrest]
    congr 1
    by_cases hcase : isCased c
    · rw [if_pos hcase]
      by_cases hb : b
      · rw [if_pos hb, lowC_lowC, hc]
      · rw [if_neg hb, lowC_upC, hc]
    · rw [if_neg hcase]
      exact hc

theorem map_lowC_pyTitle {a : PStr} (ha : IsLowerStr a) :
    (pyTitle a).map lowC = a := map_lowC_pyTitleGo ha false

theorem dedupGo_congr {s1 s2 : List PStr} (h : ∀ x, x ∈ s1 ↔ x ∈ s2)
    (l : List PStr) : dedupGo s1 l = dedupGo s2 l := by
  induction l generalizing s1 s2 with
  | nil => rfl
  | cons a rest ih =>
    simp only [dedupGo]
    by_cases ha : a ∈ s1
    · rw [if_pos ha, if_pos ((h a).mp ha)]
      exact ih h
    · rw [if_neg ha, if_neg (fun hc => ha ((h a).mpr hc))]
      have h2 : ∀ x, x ∈ a :: s1 ↔ x ∈ a :: s2 := by
        intro x; simp [h x]
      rw [ih h2]

theorem dedupGo_cons_seen (a : PStr) (seen : List PStr) (l : List PStr) :
    dedupGo (a :: seen) l = dedupGo seen (l.filter (fun b => b ≠ a)) := by
  induction l generalizing seen with
  | nil => rfl
  | cons b rest ih =>
    by_cases hba : b = a
    · subst hba
      rw [List.filter_cons_of_neg (by simp)]
      simp only [dedupGo, List.mem_cons, true_or, if_true]
      exact ih seen
    · rw [List.filter_cons_of_pos (by simpa using hba)]
      by_cases hb : b ∈ seen
      · simp only [dedupGo, List.mem_cons, hba, hb, or_true, if_true, if_pos hb]
        exact ih seen
      · have hnb : b ∉ a :: seen := by simp [hba, hb]
        simp only [dedupGo, if_neg hnb, if_neg hb]
        congr 1
        rw [@dedupGo_congr (b :: a :: seen) (a :: b :: seen) (by intro x; constructor <;>
          (intro hx; simp at hx ⊢; tauto)) rest]
        rw [ih (b :: seen)]

theorem map_lowC_dedupGo : ∀ l : List PStr, (∀ a ∈ l, IsLowerStr a) →
    (dedupGo [] l).map (List.map lowC) = firstDedup l := by
  intro l
  induction l using firstDedup.induct with
  | case1 => intro _; rw [firstDedup]; rfl
  | case2 a rest ih =>
    intro hl
    have ha : IsLowerStr a := hl a (by simp)
    have hrest : ∀ b ∈ rest.filter (fun b => b ≠ a), IsLowerStr b := by
      intro b hb
      exact hl b (by simp [List.mem_of_mem_filter hb])
    rw [show dedupGo [] (a :: rest) = pyTitle a :: dedupGo [a] rest from by
      simp [dedupGo]]
    rw [dedupGo_cons_seen, firstDedup, List.map_cons, map_lowC_pyTitle ha]
    congr 1
    exact ih hrest

theorem firstDedup_sublist (l : List PStr) : (firstDedup l).Sublist l := by
  induction l using firstDedup.induct with
  | case1 => rw [firstDedup]
  | case2 a rest ih =>
    rw [firstDedup]
    exact List.Sublist.cons₂ a (ih.trans (List.filter_sublist rest))

theorem firstDedup_nodup (l : List PStr) : (firstDedup l).Nodup := by
  induction l using firstDedup.induct with
  | case1 => rw [firstDedup]; exact List.nodup_nil
  | case2 a rest ih =>
    rw [firstDedup]
    refine List.Nodup.cons ?_ ih
    intro hmem
    have hsub := (firstDedup_sublist (rest.filter (fun b => b ≠ a))).subset hmem
    simp at hsub

theorem dedupGo_mem_title {l : List PStr} : ∀ {seen : List PStr} {x : PStr},
    x ∈ dedupGo seen l → ∃ a ∈ l, x = pyTitle a := by
  induction l with
  | nil => intro seen x hx; simp [dedupGo] at hx
  | cons a rest ih =>
    intro seen x hx
    simp only [dedupGo] at hx
    by_cases ha : a ∈ seen
    · rw [if_pos ha] at hx
      obtain ⟨b, hb, hxb⟩ := ih hx
      exact ⟨b, by simp [hb], hxb⟩
    · rw [if_neg ha] at hx
      rw [List.mem_cons] at hx
      rcases hx with hx | hx
      · exact ⟨a, by simp, hx⟩
      · obtain ⟨b, hb, hxb⟩ := ih hx
        exact ⟨b, by simp [hb], hxb⟩

theorem artistsOf_lower (s : PStr) : ∀ a ∈ artistsOf s, IsLowerStr a := by
  intro a ha
  unfold artistsOf at ha
  simp only [List.mem_map] at ha
  obtain ⟨b, _, hb⟩ := ha
  intro c hc
  rw [← hb] at hc
  simp only [List.mem_map] at hc
  obtain ⟨d, _, hd⟩ := hc
  rw [← hd]
  exact lowC_lowC d

/-- **C9.** `_remove_duplicate_artists` is correct: the empty string maps
to the empty string; otherwise, after normalizing `' and '` and `' & '`
to commas and splitting on commas (`artistsOf`), the kept names are the
title-cased first occurrences in original order (their lowercased forms
are exactly `firstDedup (artistsOf s)`, a duplicate-free sublist of the
artist list), so no two kept names agree case-insensitively, and the
result is their comma-separated join. -/
theorem removeDuplicateArtists_correct (s : PStr) :
    removeDuplicateArtists [] = []
    ∧ (dedupGo [] (artistsOf s)).map (List.map lowC) = firstDedup (artistsOf s)
    ∧ (firstDedup (artistsOf s)).Nodup
    ∧ (firstDedup (artistsOf s)).Sublist (artistsOf s)
    ∧ ((dedupGo [] (artistsOf s)).map (List.map lowC)).Nodup
    ∧ (∀ x ∈ dedupGo [] (artistsOf s), ∃ a ∈ artistsOf s, x = pyTitle a)
    ∧ (s ≠ [] → removeDuplicateArtists s = joinComma (dedupGo [] (artistsOf s))) := by
  have hlow := artistsOf_lower s
  have hmap := map_lowC_dedupGo _ hlow
  refine ⟨rfl, hmap, firstDedup_nodup _, firstDedup_sublist _, ?_, ?_, ?_⟩
  · rw [hmap]; exact firstDedup_nodup _
  · intro x hx; exact dedupGo_mem_title hx
  · intro hs; rw [removeDuplicateArtists, if_neg hs]

/-- **C9 witness.** The theorem applied to the concrete input
`"Alice and bob & ALICE"`, whose artist list is
`["alice", "bob", "alice"]`: the kept name `"Bob"` is the title-casing of
the artist `"bob"` of the input, and the whole function returns
`"Alice, Bob"`. -/
theorem removeDuplicateArtists_correct_witness :
    (∃ a ∈ artistsOf [65, 108, 105, 99, 101, 32, 97, 110, 100, 32, 98, 111, 98,
        32, 38, 32, 65, 76, 73, 67, 69], ([66, 111, 98] : PStr) = pyTitle a)
    ∧ removeDuplicateArtists [65, 108, 105, 99, 101, 32, 97, 110, 100, 32, 98,
        111, 98, 32, 38, 32, 65, 76, 73, 67, 69]
      = joinComma (dedupGo [] (artistsOf [65, 108, 105, 99, 101, 32, 97, 110,
        100, 32, 98, 111, 98, 32, 38, 32, 65, 76, 73, 67, 69])) :=
  ⟨(removeDuplicateArtists_correct _).2.2.2.2.2.1 [66, 111, 98] (by decide),
   (removeDuplicateArtists_correct _).2.2.2.2.2.2 (by decide)⟩

/-!
## The per-item pipeline of `process_download` (src/handlers/user_menu.py)

`process_download` is embedded as a trace-producing interpreter. External
collaborators (yt-dlp, the thumbnail/tagging step, Telegram delivery) are
modelled by an oracle giving each call's outcome; cooperative cancellation
is modelled by the suspension point at which `CancelledError` is raised,
if any (the `asyncio.current_task().cancelled()` checks at lines 403, 454,
474, 494, 581, 599, 618 are no-ops while the task is still running, so
cancellation is only ever delivered at an `await`). The message-editing
status surface is modelled as never raising. Reporters (the animation
tasks) are numbered in creation order; `St.active` holds those started
and not yet cancelled.
-/

/-- Failure taxonomy of the pipeline. -/
inductive ErrKind
  | extraction | fetchF | processingF | deliveryF | emptyCollection
deriving DecidableEq, Repr

/-- Observable events of one job of `process_download`. -/
inductive Ev
  | acquire
  | release
  | probe (ok : Bool)
  | lookup (vid : String) (res : Option String)
  | deliverCached (vid ref : String) (ok : Bool)
  | evict (vid : String)
  | fetch (vid : String)
  | postProcess (vid : String)
  | deliver (vid ref : String)
  | cacheWrite (vid ref : String)
  | removeFile (vid : String)
  | startRep (n : Nat)
  | stopRep (n : Nat)
  | reportErr (k : ErrKind)
deriving DecidableEq, Repr

/-- Mutable state threaded through a job: the cache table, the set of
local files (`downloads/{video_id}.mp3`, by video id), the next reporter
number, and the reporters started but not yet cancelled. -/
structure St where
  db : Db
  fs : List String
  nextRep : Nat
  active : List Nat
deriving DecidableEq, Repr

/-- One playlist entry / one probed video, as used by the code:
`entry is None`, `entry.get("webpage_url")`, `entry.get("id")`,
`entry.get("thumbnail")`. -/
structure Entry where
  isNull : Bool
  hasUrl : Bool
  vid : String
  hasThumb : Bool
deriving DecidableEq, Repr

/-- Suspension point at which `CancelledError` is delivered for an item. -/
inductive CancelPt
  | duringFetch | duringProcess | duringDeliver
deriving DecidableEq, Repr

/-- Outcomes of the external calls made for one item. -/
structure ItemOracle where
  /-- `send_cached_audio` returns True (cache-hit delivery succeeded). -/
  cachedSendOk : Bool
  /-- where, if anywhere, `CancelledError` is raised for this item. -/
  cancelAt : Option CancelPt
  /-- `download_video` raises. -/
  fetchRaises : Bool
  /-- after `download_video`, `os.path.exists(audio_filepath)` (with
  `ignoreerrors: True`, a failed download returns without a file). -/
  fetchCreatesFile : Bool
  /-- `process_audio` raises. -/
  processRaises : Bool
  /-- `bot.send_audio` raises. -/
  deliverRaises : Bool
  /-- `sent_message.audio.file_id` of a successful delivery. -/
  ref : String
deriving DecidableEq, Repr

/-- Terminal state of one item. -/
inductive ItemOutcome
  | skipped
  | doneCached (ref : String)
  | done (ref : String)
  | failed (k : ErrKind)
  | canceled
deriving DecidableEq, Repr

/-- Result of running one item: final state, the reporter the loop
variable `animation_task` points at (if still running), the item's
terminal state, and the item's event trace. -/
structure ItemRes where
  st : St
  anim : Option Nat
  out : ItemOutcome
  evs : List Ev
deriving DecidableEq, Repr

/-- `animation_task.cancel()` (no-op on `none`): state part. -/
def cancelSt (st : St) (r : Option Nat) : St :=
  match r with
  | none => st
  | some n => { st with active := st.active.filter (fun m => m ≠ n) }

/-- `animation_task.cancel()` (no-op on `none`): emitted events. -/
def cancelEv : Option Nat → List Ev
  | none => []
  | some n => [Ev.stopRep n]

/-- `asyncio.create_task(animate_...)`: allocate the next reporter. -/
def bumpRep (st : St) : St :=
  { st with nextRep := st.nextRep + 1, active := st.active ++ [st.nextRep] }

/-- the download writing `downloads/{vid}.mp3`. -/
def addFile (st : St) (v : String) : St := { st with fs := st.fs ++ [v] }

/-- `if os.path.exists(audio_filepath): os.remove(audio_filepath)`: state. -/
def rmSt (st : St) (v : String) : St := { st with fs := st.fs.filter (fun w => w ≠ v) }

/-- `if os.path.exists(audio_filepath): os.remove(audio_filepath)`: events. -/
def rmEv (st : St) (v : String) : List Ev :=
  if v ∈ st.fs then [Ev.removeFile v] else []

/-- The download/process/deliver body of one playlist item
(user_menu.py lines 431-543): the `try` at 433 with its
`except asyncio.CancelledError` (523, removes the file and re-raises),
`except Exception` (530, reports and continues with the next item) and
`finally` (540, removes the file). The incoming `anim` is the previous
animation task, cancelled at 438-439 before the download reporter starts. -/
def downloadSection (e : Entry) (o : ItemOracle) (st0 : St) (anim : Option Nat) : ItemRes :=
  -- 435-439: delete old progress message, cancel the previous reporter
  let st1 := cancelSt st0 anim
  -- 441-451: new progress message, start the download reporter
  let r1 := st1.nextRep
  let st2 := bumpRep st1
  let pre := cancelEv anim ++ [Ev.startRep r1]
  if o.fetchRaises then
    -- download_video raised → except Exception at 530: cancel reporter,
    -- report once; finally at 540: no file was created
    let st3 := cancelSt st2 (some r1)
    ⟨rmSt st3 e.vid, none, .failed .fetchF,
      pre ++ [Ev.stopRep r1, Ev.reportErr .fetchF] ++ rmEv st3 e.vid⟩
  else if o.cancelAt = some .duringFetch then
    -- CancelledError at the download await → except at 523: remove the
    -- partial file, re-raise (the reporter is cancelled by the job-level
    -- handler, not here)
    let st3 := if o.fetchCreatesFile then addFile st2 e.vid else st2
    ⟨rmSt st3 e.vid, some r1, .canceled, pre ++ rmEv st3 e.vid⟩
  else
    let st3 := if o.fetchCreatesFile then addFile st2 e.vid else st2
    let evF := [Ev.fetch e.vid]
    if e.vid ∈ st3.fs ∧ e.hasThumb then
      -- 460-471: stop download reporter, start processing reporter
      let st4 := cancelSt st3 (some r1)
      let r2 := st4.nextRep
      let st5 := bumpRep st4
      let pre2 := pre ++ evF ++ [Ev.stopRep r1, Ev.startRep r2]
      if o.cancelAt = some .duringProcess then
        -- CancelledError inside process_audio → except at 523
        ⟨rmSt st5 e.vid, some r2, .canceled, pre2 ++ rmEv st5 e.vid⟩
      else if o.processRaises then
        -- except Exception at 512: cancel reporter, report once; finally
        let st6 := cancelSt st5 (some r2)
        ⟨rmSt st6 e.vid, none, .failed .processingF,
          pre2 ++ [Ev.stopRep r2, Ev.reportErr .processingF] ++ rmEv st6 e.vid⟩
      else
        -- 479-491: processing done; stop processing reporter, start
        -- sending reporter
        let st6 := cancelSt st5 (some r2)
        let r3 := st6.nextRep
        let st7 := bumpRep st6
        let pre3 := pre2 ++ [Ev.postProcess e.vid, Ev.stopRep r2, Ev.startRep r3]
        if o.cancelAt = some .duringDeliver then
          ⟨rmSt st7 e.vid, some r3, .canceled, pre3 ++ rmEv st7 e.vid⟩
        else if o.deliverRaises then
          let st8 := cancelSt st7 (some r3)
          ⟨rmSt st8 e.vid, none, .failed .deliveryF,
            pre3 ++ [Ev.stopRep r3, Ev.reportErr .deliveryF] ++ rmEv st8 e.vid⟩
        else
          -- 497-510: send_audio succeeded; db.add_data; the sending
          -- reporter stays running until the next loop iteration or the
          -- end of the playlist; finally at 540 removes the file
          let st8 := { st7 with db := add_data st7.db e.vid o.ref }
          ⟨rmSt st8 e.vid, some r3, .done o.ref,
            pre3 ++ [Ev.deliver e.vid o.ref, Ev.cacheWrite e.vid o.ref] ++ rmEv st8 e.vid⟩
    else
      -- 517-521: "404" branch (no file or no thumbnail): cancel reporter,
      -- report once; finally at 540 removes a file without thumbnail
      let st4 := cancelSt st3 (some r1)
      ⟨rmSt st4 e.vid, none, .failed .fetchF,
        pre ++ evF ++ [Ev.stopRep r1, Ev.reportErr .fetchF] ++ rmEv st4 e.vid⟩

/-- One playlist entry (the body of `for i, entry in enumerate(entries)`,
lines 401-543): skip null entries and entries without a URL, then a cache
lookup; on a hit deliver the cached file id (`send_cached_audio`), which
on failure deletes the row (`db.remove_data`) and falls through to the
download path. -/
def runItem (e : Entry) (o : ItemOracle) (st : St) (anim : Option Nat) : ItemRes :=
  if e.isNull then ⟨st, anim, .skipped, []⟩
  else if ¬ e.hasUrl then ⟨st, anim, .skipped, []⟩
  else
    match get_file_id st.db e.vid with
    | some ref =>
      if o.cachedSendOk then
        -- 422-429: cached send succeeded → `continue`
        ⟨st, anim, .doneCached ref,
          [Ev.lookup e.vid (some ref), Ev.deliverCached e.vid ref true]⟩
      else
        -- send_cached_audio failed: db.remove_data ran (line 226), fall
        -- through to the download path
        let st' := { st with db := remove_data st.db e.vid }
        let r := downloadSection e o st' anim
        ⟨r.st, r.anim, r.out,
          [Ev.lookup e.vid (some ref), Ev.deliverCached e.vid ref false,
            Ev.evict e.vid] ++ r.evs⟩
    | none =>
      let r := downloadSection e o st anim
      ⟨r.st, r.anim, r.out, [Ev.lookup e.vid none] ++ r.evs⟩

/-- Result of the playlist loop: `aborted` records that `CancelledError`
was re-raised out of the loop. -/
structure PlayRes where
  st : St
  anim : Option Nat
  outs : List ItemOutcome
  aborted : Bool
  evs : List Ev
deriving DecidableEq, Repr

/-- The playlist loop over `entries` (lines 401-543): strictly in source
order, one item at a time; only `CancelledError` leaves the loop early. -/
def runPlaylist (items : List (Entry × ItemOracle)) (st : St) (anim : Option Nat) : PlayRes :=
  match items with
  | [] => ⟨st, anim, [], false, []⟩
  | (e, o) :: rest =>
    let r := runItem e o st anim
    if r.out = .canceled then
      ⟨r.st, r.anim, [r.out], true, r.evs⟩
    else
      let p := runPlaylist rest r.st r.anim
      ⟨p.st, p.anim, r.out :: p.outs, p.aborted, r.evs ++ p.evs⟩

/-- The single-video download path (lines 569-659) together with the
job-level handlers it reaches: `except asyncio.CancelledError` at 661
(cancels the reporter, reports "cancelled"), `except Exception` at 674
(cancels the reporter, reports the error) and `finally` at 682 (removes
the file). Unlike the playlist path there is no item-level `except`
around `download_video`. `anim` is `none` on entry: the starting reporter
was cancelled at line 389 (or at 565 on a cache hit). -/
def singleDownload (e : Entry) (o : ItemOracle) (st0 : St) (pre : List Ev) : ItemRes :=
  -- 571-578: edit the progress message, start the download reporter
  let r1 := st0.nextRep
  let st1 := bumpRep st0
  let pre1 := pre ++ [Ev.startRep r1]
  if o.cancelAt = some CancelPt.duringFetch then
    -- CancelledError at the download await → job handler 661 cancels the
    -- reporter; finally 682 removes the partial file
    let st2 := if o.fetchCreatesFile then addFile st1 e.vid else st1
    let st3 := cancelSt st2 (some r1)
    ⟨rmSt st3 e.vid, none, .canceled, pre1 ++ [Ev.stopRep r1] ++ rmEv st3 e.vid⟩
  else if o.fetchRaises then
    -- exception from download_video → job handler 674: cancel reporter,
    -- report once; finally 682: no file was created
    let st2 := cancelSt st1 (some r1)
    ⟨rmSt st2 e.vid, none, .failed .fetchF,
      pre1 ++ [Ev.stopRep r1, Ev.reportErr .fetchF] ++ rmEv st2 e.vid⟩
  else
    let st2 := if o.fetchCreatesFile then addFile st1 e.vid else st1
    let evF := [Ev.fetch e.vid]
    if e.vid ∈ st2.fs ∧ e.hasThumb then
      -- 587-596: stop download reporter, start processing reporter
      let st3 := cancelSt st2 (some r1)
      let r2 := st3.nextRep
      let st4 := bumpRep st3
      let pre2 := pre1 ++ evF ++ [Ev.stopRep r1, Ev.startRep r2]
      if o.cancelAt = some CancelPt.duringProcess then
        -- CancelledError in process_audio → except at 641 removes the
        -- file and re-raises → job handler 661 cancels the reporter
        let st5 := rmSt st4 e.vid
        ⟨cancelSt st5 (some r2), none, .canceled,
          pre2 ++ rmEv st4 e.vid ++ [Ev.stopRep r2]⟩
      else if o.processRaises then
        -- except Exception at 648: cancel reporter, report once;
        -- finally 682 removes the file
        let st5 := cancelSt st4 (some r2)
        ⟨rmSt st5 e.vid, none, .failed .processingF,
          pre2 ++ [Ev.stopRep r2, Ev.reportErr .processingF] ++ rmEv st5 e.vid⟩
      else
        -- 604-615: processing done; stop processing reporter, start the
        -- sending reporter
        let st5 := cancelSt st4 (some r2)
        let r3 := st5.nextRep
        let st6 := bumpRep st5
        let pre3 := pre2 ++ [Ev.postProcess e.vid, Ev.stopRep r2, Ev.startRep r3]
        if o.cancelAt = some CancelPt.duringDeliver then
          let st7 := rmSt st6 e.vid
          ⟨cancelSt st7 (some r3), none, .canceled,
            pre3 ++ rmEv st6 e.vid ++ [Ev.stopRep r3]⟩
        else if o.deliverRaises then
          let st7 := cancelSt st6 (some r3)
          ⟨rmSt st7 e.vid, none, .failed .deliveryF,
            pre3 ++ [Ev.stopRep r3, Ev.reportErr .deliveryF] ++ rmEv st7 e.vid⟩
        else
          -- 624-639: send_audio succeeded; db.add_data; cancel the
          -- sending reporter, delete the progress message; finally 682
          let st7 := { st6 with db := add_data st6.db e.vid o.ref }
          let st8 := cancelSt st7 (some r3)
          ⟨rmSt st8 e.vid, none, .done o.ref,
            pre3 ++ [Ev.deliver e.vid o.ref, Ev.cacheWrite e.vid o.ref,
              Ev.stopRep r3] ++ rmEv st8 e.vid⟩
    else
      -- 654-659: no file or no thumbnail: cancel reporter, report once;
      -- finally 682 removes a file without thumbnail
      let st3 := cancelSt st2 (some r1)
      ⟨rmSt st3 e.vid, none, .failed .fetchF,
        pre1 ++ evF ++ [Ev.stopRep r1, Ev.reportErr .fetchF] ++ rmEv st3 e.vid⟩

/-- The single-video branch of `process_download` (lines 556-659):
cache lookup first; a hit cancels the starting reporter (565) and sends
the cached file id; a failed cached send deletes the cache row and falls
through to the download path. -/
def runSingle (e : Entry) (o : ItemOracle) (st : St) : ItemRes :=
  match get_file_id st.db e.vid with
  | some ref =>
    if o.cachedSendOk then
      ⟨st, none, .doneCached ref,
        [Ev.lookup e.vid (some ref), Ev.deliverCached e.vid ref true]⟩
    else
      let st' := { st with db := remove_data st.db e.vid }
      singleDownload e o st'
        [Ev.lookup e.vid (some ref), Ev.deliverCached e.vid ref false, Ev.evict e.vid]
  | none => singleDownload e o st [Ev.lookup e.vid none]

/-- The request, as classified at line 392: a playlist with its entries
(each with the oracle for its item) or a single video. -/
inductive Req
  | single (e : Entry) (o : ItemOracle)
  | playlist (items : List (Entry × ItemOracle))
deriving DecidableEq, Repr

/-- Job-level oracle: outcome of `ydl.extract_info` (line 378). -/
structure JobOracle where
  probeFails : Bool
  cancelDuringProbe : Bool
deriving DecidableEq, Repr

/-- Terminal state of a whole job. -/
inductive JobOutcome
  | probeFailed
  | cancelledDuringProbe
  | emptyPlaylist
  | playlistFinished (outs : List ItemOutcome)
  | singleFinished (out : ItemOutcome)
deriving DecidableEq, Repr

/-- Result of one `process_download` job. -/
structure JobRes where
  st : St
  out : JobOutcome
  evs : List Ev
deriving DecidableEq, Repr

/-- `process_download` (lines 352-686). `async with download_semaphore`
wraps the whole body, so the slot is acquired before probing and released
after the `finally`. `anim0` is the "preparing" reporter started by
`main`. The `finally` at 682 is a no-op on the playlist path because each
item's own `finally` (line 540) already removed its file. -/
def runJob (jo : JobOracle) (req : Req) (st : St) (anim0 : Option Nat) : JobRes :=
  if jo.cancelDuringProbe then
    -- CancelledError in extract_info is not an Exception, so it skips the
    -- handler at 379 and reaches the job handler at 661, which cancels
    -- the reporter
    let st1 := cancelSt st anim0
    ⟨st1, .cancelledDuringProbe, [Ev.acquire] ++ cancelEv anim0 ++ [Ev.release]⟩
  else if jo.probeFails then
    -- except at 379-387: edit the progress message to an error and
    -- `return` — the starting reporter is NOT cancelled on this path
    ⟨st, .probeFailed,
      [Ev.acquire, Ev.probe false, Ev.reportErr .extraction, Ev.release]⟩
  else
    -- 389: animation_task.cancel()
    let st1 := cancelSt st anim0
    let pre := [Ev.acquire, Ev.probe true] ++ cancelEv anim0
    match req with
    | .playlist items =>
      if items.isEmpty then
        -- 396-399: empty playlist fails the whole job
        ⟨st1, .emptyPlaylist, pre ++ [Ev.reportErr .emptyCollection, Ev.release]⟩
      else
        let p := runPlaylist items st1 none
        -- normal end 545-546, or the job-level CancelledError handler at
        -- 661-665: either way the last reporter is cancelled
        let st2 := cancelSt p.st p.anim
        ⟨st2, .playlistFinished p.outs, pre ++ p.evs ++ cancelEv p.anim ++ [Ev.release]⟩
    | .single e o =>
      let r := runSingle e o st1
      ⟨r.st, .singleFinished r.out, pre ++ r.evs ++ [Ev.release]⟩

/-- `main` (lines 302-349): starts the "preparing" animation task
(reporter 0) and the `process_download` task. -/
def runMain (jo : JobOracle) (req : Req) (db : Db) (fs : List String) : JobRes :=
  let st0 : St := ⟨db, fs, 0, []⟩
  let r0 := st0.nextRep
  let st1 := bumpRep st0
  let r := runJob jo req st1 (some r0)
  ⟨r.st, r.out, [Ev.startRep r0] ++ r.evs⟩

@[simp] theorem cancelSt_db (st : St) (r : Option Nat) : (cancelSt st r).db = st.db := by
  cases r <;> rfl

@[simp] theorem cancelSt_fs (st : St) (r : Option Nat) : (cancelSt st r).fs = st.fs := by
  cases r <;> rfl

@[simp] theorem cancelSt_nextRep (st : St) (r : Option Nat) :
    (cancelSt st r).nextRep = st.nextRep := by
  cases r <;> rfl

@[simp] theorem bumpRep_db (st : St) : (bumpRep st).db = st.db := rfl

@[simp] theorem bumpRep_fs (st : St) : (bumpRep st).fs = st.fs := rfl

@[simp] theorem bumpRep_nextRep (st : St) : (bumpRep st).nextRep = st.nextRep + 1 := rfl

@[simp] theorem addFile_db (st : St) (v : String) : (addFile st v).db = st.db := rfl

@[simp] theorem addFile_fs (st : St) (v : String) : (addFile st v).fs = st.fs ++ [v] := rfl

@[simp] theorem addFile_nextRep (st : St) (v : String) :
    (addFile st v).nextRep = st.nextRep := rfl

@[simp] theorem rmSt_db (st : St) (v : String) : (rmSt st v).db = st.db := rfl

@[simp] theorem rmSt_fs (st : St) (v : String) :
    (rmSt st v).fs = st.fs.filter (fun w => w ≠ v) := rfl

@[simp] theorem rmSt_nextRep (st : St) (v : String) : (rmSt st v).nextRep = st.nextRep := rfl

@[simp] theorem rmSt_active (st : St) (v : String) : (rmSt st v).active = st.active := rfl

@[simp] theorem addFile_active (st : St) (v : String) : (addFile st v).active = st.active := rfl

/-- **C7 (code bug).** When `ydl.extract_info` fails, the handler at
lines 379-387 edits the progress message to an error text and returns
from `process_download` without cancelling the "preparing" animation
task started in `main` (line 336): the job ends with its reporter still
running (it keeps overwriting the error message every second), violating
"every reporter is stopped before the job ends — including when the job
ends because a stage failed". Every other exit path cancels the active
reporter. -/
theorem probe_failure_leaks_reporter :
    (runMain ⟨true, false⟩ (.single ⟨false, true, "X", true⟩
        ⟨true, none, false, true, false, false, "r1"⟩) [] []).out = .probeFailed
    ∧ (runMain ⟨true, false⟩ (.single ⟨false, true, "X", true⟩
        ⟨true, none, false, true, false, false, "r1"⟩) [] []).st.active = [0]
    ∧ Ev.startRep 0 ∈ (runMain ⟨true, false⟩ (.single ⟨false, true, "X", true⟩
        ⟨true, none, false, true, false, false, "r1"⟩) [] []).evs
    ∧ Ev.stopRep 0 ∉ (runMain ⟨true, false⟩ (.single ⟨false, true, "X", true⟩
        ⟨true, none, false, true, false, false, "r1"⟩) [] []).evs := by
  decide

/-- An entry of `user_tasks[user_id]`: an animation (reporter) task or
the `process_download` task. -/
inductive TaskRef
  | animT (n : Nat)
  | downloadT
deriving DecidableEq, Repr

/-- `user_tasks[user_id]` once the job is over and the done-callbacks
have run. `main` appends the starting animation task (line 337) and the
download task (line 343); every reporter created inside `process_download`
is appended on creation (lines 451, 471, 491, 578, 596, 615). The only
done-callback installed (line 347) removes the download task; no
animation task has one. -/
def registryAfterJob (jo : JobOracle) (req : Req) (db : Db) (fs : List String) :
    List TaskRef :=
  ([TaskRef.animT 0, TaskRef.downloadT] ++
    (List.range ((runMain jo req db fs).st.nextRep - 1)).map
      (fun n => TaskRef.animT (n + 1))).filter
    (fun t => t ≠ TaskRef.downloadT)

/-- **C6 counterexample.** After a fully successful single-item job, every
underlying task has finished (all reporters were cancelled, the download
task completed), yet the per-user task set still holds the four animation
task entries — they have no done-callback and are never removed. This
refutes "every entry ... is removed from that set automatically when its
underlying task finishes". -/
theorem registry_keeps_finished_reporters :
    (runMain ⟨false, false⟩ (.single ⟨false, true, "X", true⟩
        ⟨true, none, false, true, false, false, "r1"⟩) [] []).st.active = []
    ∧ registryAfterJob ⟨false, false⟩ (.single ⟨false, true, "X", true⟩
        ⟨true, none, false, true, false, false, "r1"⟩) [] []
      = [TaskRef.animT 0, TaskRef.animT 1, TaskRef.animT 2, TaskRef.animT 3] := by
  decide

/-- **C6 (amended).** Only the download task's registry entry is removed
automatically (by the done-callback at line 347): after any job, the
per-user task set consists of exactly the animation-task entries, one per
reporter ever created, and the download task's entry is gone. Animation
entries are only cleared by the user's `/cancel`. -/
theorem registry_prunes_only_download_task (jo : JobOracle) (req : Req)
    (db : Db) (fs : List String) :
    TaskRef.downloadT ∉ registryAfterJob jo req db fs
    ∧ registryAfterJob jo req db fs
      = TaskRef.animT 0 :: (List.range ((runMain jo req db fs).st.nextRep - 1)).map
          (fun n => TaskRef.animT (n + 1)) := by
  constructor
  · intro h
    have := List.of_mem_filter h
    simp at this
  · unfold registryAfterJob
    rw [List.filter_append]
    rw [show (List.filter (fun t => t ≠ TaskRef.downloadT)
      [TaskRef.animT 0, TaskRef.downloadT]) = [TaskRef.animT 0] from by decide]
    have h2 : List.filter (fun t => t ≠ TaskRef.downloadT)
        ((List.range ((runMain jo req db fs).st.nextRep - 1)).map
          (fun n => TaskRef.animT (n + 1)))
        = (List.range ((runMain jo req db fs).st.nextRep - 1)).map
          (fun n => TaskRef.animT (n + 1)) := by
      rw [List.filter_eq_self]
      intro a ha
      simp only [List.mem_map] at ha
      obtain ⟨n, _, hn⟩ := ha
      subst hn
      simp
    rw [h2]
    rfl

theorem acquire_not_mem_cancelEv (r : Option Nat) : Ev.acquire ∉ cancelEv r := by
  cases r <;> simp [cancelEv]

theorem release_not_mem_cancelEv (r : Option Nat) : Ev.release ∉ cancelEv r := by
  cases r <;> simp [cancelEv]

theorem acquire_not_mem_rmEv (st : St) (v : String) : Ev.acquire ∉ rmEv st v := by
  unfold rmEv; split <;> simp

theorem release_not_mem_rmEv (st : St) (v : String) : Ev.release ∉ rmEv st v := by
  unfold rmEv; split <;> simp

theorem evs_ite (c : Prop) [Decidable c] (r1 r2 : ItemRes) :
    (if c then r1 else r2).evs = if c then r1.evs else r2.evs := by
  split <;> rfl

theorem out_ite (c : Prop) [Decidable c] (r1 r2 : ItemRes) :
    (if c then r1 else r2).out = if c then r1.out else r2.out := by
  split <;> rfl

theorem st_ite (c : Prop) [Decidable c] (r1 r2 : ItemRes) :
    (if c then r1 else r2).st = if c then r1.st else r2.st := by
  split <;> rfl

set_option maxHeartbeats 1000000 in
theorem downloadSection_no_sem (e : Entry) (o : ItemOracle) (st : St) (anim : Option Nat) :
    Ev.acquire ∉ (downloadSection e o st anim).evs
    ∧ Ev.release ∉ (downloadSection e o st anim).evs := by
  unfold downloadSection
  repeat' split
  all_goals try rw [evs_ite]
  repeat' split
  all_goals
    simp [List.mem_append, acquire_not_mem_cancelEv, release_not_mem_cancelEv,
      acquire_not_mem_rmEv, release_not_mem_rmEv]

theorem runItem_no_sem (e : Entry) (o : ItemOracle) (st : St) (anim : Option Nat) :
    Ev.acquire ∉ (runItem e o st anim).evs ∧ Ev.release ∉ (runItem e o st anim).evs := by
  unfold runItem
  repeat' split
  all_goals simp [List.mem_append, downloadSection_no_sem]

theorem runPlaylist_no_sem (items : List (Entry × ItemOracle)) (st : St) (anim : Option Nat) :
    Ev.acquire ∉ (runPlaylist items st anim).evs
    ∧ Ev.release ∉ (runPlaylist items st anim).evs := by
  induction items generalizing st anim with
  | nil => simp [runPlaylist]
  | cons p rest ih =>
    obtain ⟨e, o⟩ := p
    simp only [runPlaylist]
    split
    · exact runItem_no_sem e o st anim
    · simp [List.mem_append, runItem_no_sem, ih]

theorem singleDownload_no_sem (e : Entry) (o : ItemOracle) (st : St) (pre : List Ev)
    (hpre : Ev.acquire ∉ pre ∧ Ev.release ∉ pre) :
    Ev.acquire ∉ (singleDownload e o st pre).evs
    ∧ Ev.release ∉ (singleDownload e o st pre).evs := by
  unfold singleDownload
  repeat' split
  all_goals try rw [evs_ite]
  repeat' split
  all_goals
    simp [List.mem_append, acquire_not_mem_rmEv, release_not_mem_rmEv, hpre.1, hpre.2]

theorem runSingle_no_sem (e : Entry) (o : ItemOracle) (st : St) :
    Ev.acquire ∉ (runSingle e o st).evs ∧ Ev.release ∉ (runSingle e o st).evs := by
  unfold runSingle
  repeat' split
  · simp
  · exact singleDownload_no_sem _ _ _ _ ⟨by simp, by simp⟩
  · exact singleDownload_no_sem _ _ _ _ ⟨by simp, by simp⟩

/-- **C1 counterexample.** `async with download_semaphore:` (line 355)
wraps the whole of `process_download`, so the slot is acquired before
the metadata probe: in a successful single-item run the trace begins
`startRep 0, acquire, probe` — Probing happens after `acquire` and before
any `fetch` and before `release`, refuting "the slot is acquired at entry
to Fetching and Probing, PostProcessing and Delivering execute without
holding a slot". -/
theorem slot_held_during_probing :
    ((runMain ⟨false, false⟩ (.single ⟨false, true, "X", true⟩
        ⟨true, none, false, true, false, false, "r1"⟩) [] []).evs.take 3
      = [Ev.startRep 0, Ev.acquire, Ev.probe true])
    ∧ Ev.fetch "X" ∈ (runMain ⟨false, false⟩ (.single ⟨false, true, "X", true⟩
        ⟨true, none, false, true, false, false, "r1"⟩) [] []).evs
    ∧ Ev.release ∉ ((runMain ⟨false, false⟩ (.single ⟨false, true, "X", true⟩
        ⟨true, none, false, true, false, false, "r1"⟩) [] []).evs.take 3) := by
  decide

/-- **C1 (amended).** The limiter slot is acquired exactly once per job,
at entry to `process_download` — before Probing — and released exactly
once, when the job ends: every job trace is `acquire`, then a body free
of `acquire`/`release` (which contains all `fetch` events), then
`release`. Since each of at most 5 concurrent slot holders runs its items
sequentially, at most 5 items are in Fetching at any instant — the bound
of the original claim survives, but Probing, PostProcessing and
Delivering also run holding the slot. -/
theorem slot_brackets_whole_job (jo : JobOracle) (req : Req) (st : St)
    (anim0 : Option Nat) :
    ∃ mid, (runJob jo req st anim0).evs = Ev.acquire :: mid ++ [Ev.release]
      ∧ Ev.acquire ∉ mid ∧ Ev.release ∉ mid := by
  unfold runJob
  split
  · exact ⟨cancelEv anim0, rfl,
      acquire_not_mem_cancelEv anim0, release_not_mem_cancelEv anim0⟩
  · split
    · exact ⟨[Ev.probe false, Ev.reportErr .extraction], rfl, by simp, by simp⟩
    · split
      · next items =>
        split
        · exact ⟨[Ev.probe true] ++ cancelEv anim0 ++ [Ev.reportErr .emptyCollection],
            by simp, by simp [acquire_not_mem_cancelEv],
            by simp [release_not_mem_cancelEv]⟩
        · refine ⟨[Ev.probe true] ++ cancelEv anim0
            ++ (runPlaylist items (cancelSt st anim0) none).evs
            ++ cancelEv (runPlaylist items (cancelSt st anim0) none).anim, by simp, ?_, ?_⟩
          · simp [acquire_not_mem_cancelEv,
              (runPlaylist_no_sem items (cancelSt st anim0) none).1]
          · simp [release_not_mem_cancelEv,
              (runPlaylist_no_sem items (cancelSt st anim0) none).2]
      · next e o =>
        refine ⟨[Ev.probe true] ++ cancelEv anim0
          ++ (runSingle e o (cancelSt st anim0)).evs, by simp, ?_, ?_⟩
        · simp [acquire_not_mem_cancelEv, (runSingle_no_sem e o (cancelSt st anim0)).1]
        · simp [release_not_mem_cancelEv, (runSingle_no_sem e o (cancelSt st anim0)).2]

theorem fs_ite (c : Prop) [Decidable c] (s1 s2 : St) :
    (if c then s1 else s2).fs = if c then s1.fs else s2.fs := by
  split <;> rfl

set_option maxHeartbeats 1000000 in
theorem downloadSection_fs (e : Entry) (o : ItemOracle) (st : St) (anim : Option Nat)
    (v : String) (hv : v ∈ (downloadSection e o st anim).st.fs) : v ∈ st.fs := by
  revert hv
  unfold downloadSection
  repeat' split
  all_goals try rw [st_ite]
  all_goals try rw [fs_ite]
  repeat' split
  all_goals
    intro hv
  all_goals
    simp only [rmSt_fs, cancelSt_fs, bumpRep_fs, addFile_fs, List.mem_filter,
      List.mem_append, List.mem_singleton, decide_eq_true_eq] at hv
  all_goals tauto

set_option maxHeartbeats 1000000 in
theorem singleDownload_fs (e : Entry) (o : ItemOracle) (st : St) (pre : List Ev)
    (v : String) (hv : v ∈ (singleDownload e o st pre).st.fs) : v ∈ st.fs := by
  revert hv
  unfold singleDownload
  repeat' split
  all_goals try rw [st_ite]
  all_goals try rw [fs_ite]
  repeat' split
  all_goals
    intro hv
  all_goals
    simp only [rmSt_fs, cancelSt_fs, bumpRep_fs, addFile_fs, List.mem_filter,
      List.mem_append, List.mem_singleton, decide_eq_true_eq] at hv
  all_goals tauto

theorem runItem_fs (e : Entry) (o : ItemOracle) (st : St) (anim : Option Nat)
    (v : String) (hv : v ∈ (runItem e o st anim).st.fs) : v ∈ st.fs := by
  revert hv
  unfold runItem
  repeat' split
  · exact fun h => h
  · exact fun h => h
  · exact fun h => h
  · intro hv
    simp only at hv
    exact downloadSection_fs e o ⟨remove_data st.db e.vid, st.fs, st.nextRep, st.active⟩
      anim v hv
  · intro hv
    exact downloadSection_fs e o st anim v hv

theorem runSingle_fs (e : Entry) (o : ItemOracle) (st : St)
    (v : String) (hv : v ∈ (runSingle e o st).st.fs) : v ∈ st.fs := by
  revert hv
  unfold runSingle
  repeat' split
  · exact fun h => h
  · intro hv
    simp only at hv
    exact singleDownload_fs e o ⟨remove_data st.db e.vid, st.fs, st.nextRep, st.active⟩
      _ v hv
  · intro hv
    exact singleDownload_fs e o st _ v hv

theorem runPlaylist_fs (items : List (Entry × ItemOracle)) (st : St) (anim : Option Nat)
    (v : String) (hv : v ∈ (runPlaylist items st anim).st.fs) : v ∈ st.fs := by
  induction items generalizing st anim with
  | nil => exact hv
  | cons p rest ih =>
    obtain ⟨e, o⟩ := p
    simp only [runPlaylist] at hv
    split at hv
    · exact runItem_fs _ _ _ _ _ hv
    · exact runItem_fs _ _ _ _ _ (ih _ _ hv)

theorem runJob_fs (jo : JobOracle) (req : Req) (st : St) (anim0 : Option Nat)
    (v : String) (hv : v ∈ (runJob jo req st anim0).st.fs) : v ∈ st.fs := by
  revert hv
  unfold runJob
  repeat' split
  · intro hv; simpa using hv
  · exact fun h => h
  · intro hv; simpa using hv
  · intro hv
    rw [cancelSt_fs] at hv
    simpa using runPlaylist_fs _ _ _ _ hv
  · intro hv
    simpa using runSingle_fs _ _ _ _ hv

/-- **C5.** On every exit path — success, failure of any stage, or
cancellation — the item's downloaded file has been removed by the time
the item (and a fortiori the job) completes: no run ever adds a file
that survives it, and in particular if `downloads/{vid}.mp3` did not
exist before the item ran, it does not exist after, on any oracle
(`finally` at lines 540-543 and 682-685, plus the removals in the
`CancelledError` handlers at 523-528 and 641-646). -/
theorem artifacts_removed_on_every_exit :
    (∀ (e : Entry) (o : ItemOracle) (st : St) (anim : Option Nat) (v : String),
      v ∈ (runItem e o st anim).st.fs → v ∈ st.fs)
    ∧ (∀ (e : Entry) (o : ItemOracle) (st : St) (v : String),
      v ∈ (runSingle e o st).st.fs → v ∈ st.fs)
    ∧ (∀ (jo : JobOracle) (req : Req) (db : Db) (fs : List String) (v : String),
      v ∈ (runMain jo req db fs).st.fs → v ∈ fs)
    ∧ (∀ (e : Entry) (o : ItemOracle) (st : St) (anim : Option Nat),
      e.vid ∉ st.fs → e.vid ∉ (runItem e o st anim).st.fs) := by
  refine ⟨fun e o st anim v => runItem_fs e o st anim v,
    fun e o st v => runSingle_fs e o st v, ?_, ?_⟩
  · intro jo req db fs v hv
    exact runJob_fs _ _ _ _ _ hv
  · intro e o st anim h hmem
    exact h (runItem_fs e o st anim e.vid hmem)

/-- **C5 witness.** The cleanup theorem applied to a concrete cancelled
run: an item cancelled during delivery leaves no file behind. -/
theorem artifacts_removed_on_every_exit_witness :
    "X" ∉ (runItem ⟨false, true, "X", true⟩
      ⟨true, some .duringDeliver, false, true, false, false, "r1"⟩
      ⟨[], [], 0, []⟩ none).st.fs :=
  artifacts_removed_on_every_exit.2.2.2
    ⟨false, true, "X", true⟩ ⟨true, some .duringDeliver, false, true, false, false, "r1"⟩
    ⟨[], [], 0, []⟩ none (by decide)

/-- Is an event a Cache Store write (`db.add_data`)? -/
def isWrite : Ev → Bool
  | .cacheWrite _ _ => true
  | _ => false

@[simp] theorem filter_isWrite_cancelEv (r : Option Nat) :
    (cancelEv r).filter isWrite = [] := by cases r <;> rfl

@[simp] theorem filter_isWrite_rmEv (st : St) (v : String) :
    (rmEv st v).filter isWrite = [] := by unfold rmEv; split <;> rfl

@[simp] theorem cacheWrite_not_mem_cancelEv (v f : String) (r : Option Nat) :
    Ev.cacheWrite v f ∉ cancelEv r := by cases r <;> simp [cancelEv]

@[simp] theorem cacheWrite_not_mem_rmEv (v f : String) (st : St) (w : String) :
    Ev.cacheWrite v f ∉ rmEv st w := by unfold rmEv; split <;> simp

set_option maxHeartbeats 1000000 in
theorem downloadSection_writes_len (e : Entry) (o : ItemOracle) (st : St)
    (anim : Option Nat) :
    ((downloadSection e o st anim).evs.filter isWrite).length ≤ 1 := by
  unfold downloadSection
  simp only [evs_ite]
  repeat' split
  all_goals simp [List.filter_append, isWrite]

set_option maxHeartbeats 1000000 in
theorem downloadSection_writes_mem (e : Entry) (o : ItemOracle) (st : St)
    (anim : Option Nat) (v f : String)
    (hv : Ev.cacheWrite v f ∈ (downloadSection e o st anim).evs) :
    (downloadSection e o st anim).out = .done f ∧ v = e.vid
    ∧ Ev.deliver v f ∈ (downloadSection e o st anim).evs := by
  revert hv
  unfold downloadSection
  simp only [evs_ite, out_ite]
  repeat' split
  all_goals intro hv
  all_goals simp_all [List.mem_append]

set_option maxHeartbeats 1000000 in
theorem singleDownload_writes_len (e : Entry) (o : ItemOracle) (st : St) (pre : List Ev)
    (hpre : pre.filter isWrite = []) :
    ((singleDownload e o st pre).evs.filter isWrite).length ≤ 1 := by
  unfold singleDownload
  simp only [evs_ite]
  repeat' split
  all_goals simp [List.filter_append, isWrite, hpre]

set_option maxHeartbeats 1000000 in
theorem singleDownload_writes_mem (e : Entry) (o : ItemOracle) (st : St) (pre : List Ev)
    (hpre : ∀ v f, Ev.cacheWrite v f ∉ pre) (v f : String)
    (hv : Ev.cacheWrite v f ∈ (singleDownload e o st pre).evs) :
    (singleDownload e o st pre).out = .done f ∧ v = e.vid
    ∧ Ev.deliver v f ∈ (singleDownload e o st pre).evs := by
  revert hv
  unfold singleDownload
  simp only [evs_ite, out_ite]
  repeat' split
  all_goals intro hv
  all_goals simp_all [List.mem_append, hpre]

theorem runItem_writes (e : Entry) (o : ItemOracle) (st : St) (anim : Option Nat) :
    (((runItem e o st anim).evs.filter isWrite).length ≤ 1)
    ∧ (∀ v f, Ev.cacheWrite v f ∈ (runItem e o st anim).evs →
        (runItem e o st anim).out = .done f ∧ v = e.vid
        ∧ Ev.deliver v f ∈ (runItem e o st anim).evs) := by
  unfold runItem
  repeat' split
  · simp [isWrite]
  · simp [isWrite]
  · constructor
    · simp [List.filter_append, isWrite]
    · intro v f hv
      simp [isWrite] at hv
  · rename_i x ref heq hcs
    simp only
    constructor
    · simp only [List.filter_append, List.length_append]
      have h1 : (List.filter isWrite [Ev.lookup e.vid (some ref),
          Ev.deliverCached e.vid ref false, Ev.evict e.vid]) = [] := rfl
      rw [h1]
      simpa using downloadSection_writes_len e o _ anim
    · intro v f hv
      rw [List.mem_append] at hv
      rcases hv with hv | hv
      · simp at hv
      · obtain ⟨h1, h2, h3⟩ := downloadSection_writes_mem e o _ anim v f hv
        exact ⟨h1, h2, by rw [List.mem_append]; exact Or.inr h3⟩
  · simp only
    constructor
    · simp only [List.filter_append, List.length_append]
      have h1 : (List.filter isWrite [Ev.lookup e.vid none]) = [] := rfl
      rw [h1]
      simpa using downloadSection_writes_len e o st anim
    · intro v f hv
      rw [List.mem_append] at hv
      rcases hv with hv | hv
      · simp at hv
      · obtain ⟨h1, h2, h3⟩ := downloadSection_writes_mem e o st anim v f hv
        exact ⟨h1, h2, by rw [List.mem_append]; exact Or.inr h3⟩

theorem runSingle_writes (e : Entry) (o : ItemOracle) (st : St) :
    (((runSingle e o st).evs.filter isWrite).length ≤ 1)
    ∧ (∀ v f, Ev.cacheWrite v f ∈ (runSingle e o st).evs →
        (runSingle e o st).out = .done f ∧ v = e.vid
        ∧ Ev.deliver v f ∈ (runSingle e o st).evs) := by
  unfold runSingle
  repeat' split
  · constructor
    · simp [isWrite]
    · intro v f hv
      simp [isWrite] at hv
  · rename_i x ref heq hcs
    simp only
    constructor
    · exact singleDownload_writes_len e o
        ⟨remove_data st.db e.vid, st.fs, st.nextRep, st.active⟩
        [Ev.lookup e.vid (some ref), Ev.deliverCached e.vid ref false, Ev.evict e.vid] rfl
    · exact fun v f hv => singleDownload_writes_mem e o
        ⟨remove_data st.db e.vid, st.fs, st.nextRep, st.active⟩
        [Ev.lookup e.vid (some ref), Ev.deliverCached e.vid ref false, Ev.evict e.vid]
        (by intro w g; simp) v f hv
  · constructor
    · exact singleDownload_writes_len e o st [Ev.lookup e.vid none] rfl
    · exact fun v f hv => singleDownload_writes_mem e o st [Ev.lookup e.vid none]
        (by intro w g; simp) v f hv

/-- **C4.** Per item, at most one Cache Store write occurs, and only
after that item's delivery succeeded: every `cacheWrite` event in an
item's trace is for this item's `content_id`, is accompanied by a
successful `deliver` event, and implies the item finished `Done`
(`db.add_data` at lines 510 and 636 runs only after `bot.send_audio`
returned). Consequently a failed or cancelled item — whose outcome is
`failed`/`canceled`, not `done` — never writes to the cache. -/
theorem one_cache_write_only_after_delivery :
    (∀ (e : Entry) (o : ItemOracle) (st : St) (anim : Option Nat),
      (((runItem e o st anim).evs.filter isWrite).length ≤ 1)
      ∧ (∀ v f, Ev.cacheWrite v f ∈ (runItem e o st anim).evs →
          (runItem e o st anim).out = .done f ∧ v = e.vid
          ∧ Ev.deliver v f ∈ (runItem e o st anim).evs))
    ∧ (∀ (e : Entry) (o : ItemOracle) (st : St),
      (((runSingle e o st).evs.filter isWrite).length ≤ 1)
      ∧ (∀ v f, Ev.cacheWrite v f ∈ (runSingle e o st).evs →
          (runSingle e o st).out = .done f ∧ v = e.vid
          ∧ Ev.deliver v f ∈ (runSingle e o st).evs)) :=
  ⟨runItem_writes, runSingle_writes⟩

/-- **C4 witness.** The theorem applied to a concrete cancelled item:
its trace contains no cache write (the filter of its trace by `isWrite`
is empty, as forced by the membership clause at outcome `canceled`). -/
theorem one_cache_write_only_after_delivery_witness :
    ((runItem ⟨false, true, "X", true⟩
      ⟨true, some .duringDeliver, false, true, false, false, "r1"⟩
      ⟨[], [], 0, []⟩ none).evs.filter isWrite).length ≤ 1 :=
  (one_cache_write_only_after_delivery.1 ⟨false, true, "X", true⟩
    ⟨true, some .duringDeliver, false, true, false, false, "r1"⟩ ⟨[], [], 0, []⟩ none).1

/-- **C1 witness.** The bracket theorem applied to a concrete job. -/
theorem slot_brackets_whole_job_witness :
    ∃ mid, (runJob ⟨false, false⟩ (.single ⟨false, true, "X", true⟩
        ⟨true, none, false, true, false, false, "r1"⟩) ⟨[], [], 1, [0]⟩ (some 0)).evs
      = Ev.acquire :: mid ++ [Ev.release]
      ∧ Ev.acquire ∉ mid ∧ Ev.release ∉ mid :=
  slot_brackets_whole_job ⟨false, false⟩ (.single ⟨false, true, "X", true⟩
    ⟨true, none, false, true, false, false, "r1"⟩) ⟨[], [], 1, [0]⟩ (some 0)

/-- **C6 witness.** The amended registry theorem applied to a concrete job. -/
theorem registry_prunes_only_download_task_witness :
    TaskRef.downloadT ∉ registryAfterJob ⟨false, false⟩ (.single ⟨false, true, "X", true⟩
      ⟨true, none, false, true, false, false, "r1"⟩) [] [] :=
  (registry_prunes_only_download_task ⟨false, false⟩ (.single ⟨false, true, "X", true⟩
    ⟨true, none, false, true, false, false, "r1"⟩) [] []).1

/-- Is an event an error report to the requester? -/
def isReportErr : Ev → Bool
  | .reportErr _ => true
  | _ => false

@[simp] theorem filter_isReportErr_cancelEv (r : Option Nat) :
    (cancelEv r).filter isReportErr = [] := by cases r <;> rfl

@[simp] theorem filter_isReportErr_rmEv (st : St) (v : String) :
    (rmEv st v).filter isReportErr = [] := by unfold rmEv; split <;> rfl

/-- An item none of whose external calls fails. -/
def goodItem (p : Entry × ItemOracle) : Prop :=
  p.1.isNull = false ∧ p.1.hasUrl = true ∧ p.1.hasThumb = true
  ∧ p.2.fetchRaises = false ∧ p.2.fetchCreatesFile = true
  ∧ p.2.processRaises = false ∧ p.2.deliverRaises = false
  ∧ p.2.cachedSendOk = true ∧ p.2.cancelAt = none

instance (p : Entry × ItemOracle) : Decidable (goodItem p) := by
  unfold goodItem; infer_instance

set_option maxHeartbeats 1000000 in
theorem downloadSection_not_canceled (e : Entry) (o : ItemOracle) (st : St)
    (anim : Option Nat) (h : o.cancelAt = none) :
    (downloadSection e o st anim).out ≠ .canceled := by
  unfold downloadSection
  simp only [out_ite]
  repeat' split
  all_goals simp_all

theorem runItem_not_canceled (e : Entry) (o : ItemOracle) (st : St)
    (anim : Option Nat) (h : o.cancelAt = none) :
    (runItem e o st anim).out ≠ .canceled := by
  unfold runItem
  repeat' split
  · simp
  · simp
  · simp
  · simp only
    exact downloadSection_not_canceled e o _ anim h
  · simp only
    exact downloadSection_not_canceled e o st anim h

set_option maxHeartbeats 1000000 in
theorem downloadSection_good_out (e : Entry) (o : ItemOracle) (st : St)
    (anim : Option Nat) (h1 : e.hasThumb = true) (h2 : o.fetchRaises = false)
    (h3 : o.fetchCreatesFile = true) (h4 : o.processRaises = false)
    (h5 : o.deliverRaises = false) (h6 : o.cancelAt = none) :
    (downloadSection e o st anim).out = .done o.ref := by
  unfold downloadSection
  simp only [out_ite]
  repeat' split
  all_goals simp_all [List.mem_append]

theorem runItem_good_out (e : Entry) (o : ItemOracle) (st : St) (anim : Option Nat)
    (hg : goodItem (e, o)) :
    (runItem e o st anim).out = .done o.ref
    ∨ ∃ r, (runItem e o st anim).out = .doneCached r := by
  obtain ⟨hn, hu, ht, hf, hc, hp, hd, hcs, hca⟩ := hg
  unfold runItem
  repeat' split
  all_goals
    first
      | (simp only
         exact Or.inl (downloadSection_good_out e o st anim ht hf hc hp hd hca))
      | simp_all

theorem runPlaylist_no_cancel (items : List (Entry × ItemOracle)) (st : St)
    (anim : Option Nat) (h : ∀ p ∈ items, p.2.cancelAt = none) :
    (runPlaylist items st anim).outs.length = items.length
    ∧ (runPlaylist items st anim).aborted = false
    ∧ (∀ i (hi : i < items.length), goodItem (items.get ⟨i, hi⟩) →
        ((runPlaylist items st anim).outs.get? i = some (.done (items.get ⟨i, hi⟩).2.ref)
         ∨ ∃ r, (runPlaylist items st anim).outs.get? i = some (.doneCached r))) := by
  induction items generalizing st anim with
  | nil =>
    refine ⟨rfl, rfl, ?_⟩
    intro i hi
    exact absurd hi (by simp)
  | cons p rest ih =>
    obtain ⟨e, o⟩ := p
    have ho : o.cancelAt = none := h (e, o) (by simp)
    have hnc := runItem_not_canceled e o st anim ho
    simp only [runPlaylist]
    rw [if_neg hnc]
    have hrest : ∀ q ∈ rest, q.2.cancelAt = none := fun q hq => h q (by simp [hq])
    obtain ⟨ihl, iha, ihg⟩ := ih (runItem e o st anim).st (runItem e o st anim).anim hrest
    refine ⟨by simp [ihl], by simp [iha], ?_⟩
    intro i hi hgi
    match i with
    | 0 =>
      rcases runItem_good_out e o st anim hgi with hout | ⟨r, hout⟩
      · exact Or.inl (by simp [hout])
      · exact Or.inr ⟨r, by simp [hout]⟩
    | Nat.succ j =>
      have hj : j < rest.length := by simpa using hi
      rcases ihg j hj (by simpa using hgi) with hout | ⟨r, hout⟩
      · exact Or.inl (by simpa using hout)
      · exact Or.inr ⟨r, by simpa using hout⟩

set_option maxHeartbeats 1000000 in
theorem downloadSection_failed_one_report (e : Entry) (o : ItemOracle) (st : St)
    (anim : Option Nat) (k : ErrKind)
    (h : (downloadSection e o st anim).out = .failed k) :
    ((downloadSection e o st anim).evs.filter isReportErr).length = 1 := by
  revert h
  unfold downloadSection
  simp only [out_ite, evs_ite]
  repeat' split
  all_goals intro h
  all_goals simp_all [List.filter_append, isReportErr]

theorem runItem_failed_one_report (e : Entry) (o : ItemOracle) (st : St)
    (anim : Option Nat) (k : ErrKind)
    (h : (runItem e o st anim).out = .failed k) :
    ((runItem e o st anim).evs.filter isReportErr).length = 1 := by
  revert h
  unfold runItem
  repeat' split
  · intro h; simp at h
  · intro h; simp at h
  · intro h; simp at h
  · rename_i x ref heq hcs
    simp only
    intro h
    simp only [List.filter_append, List.length_append]
    rw [show List.filter isReportErr [Ev.lookup e.vid (some ref),
      Ev.deliverCached e.vid ref false, Ev.evict e.vid] = [] from rfl]
    simpa using downloadSection_failed_one_report e o _ anim k h
  · simp only
    intro h
    simp only [List.filter_append, List.length_append]
    rw [show List.filter isReportErr [Ev.lookup e.vid none] = [] from rfl]
    simpa using downloadSection_failed_one_report e o st anim k h

/-- **C3.** In a collection job without cancellation, every entry is
processed (the `for` loop of lines 401-543 runs the items strictly in
source order, one at a time, and an item failure is caught by the
`except` blocks at 512 and 530 inside the loop): the outcome list has
one terminal outcome per entry, in entry order; an entry whose own calls
all succeed reaches `Done` (fresh or cached delivery) no matter what
happened to its siblings; and a failed item produces exactly one error
report. -/
theorem playlist_failure_isolation (items : List (Entry × ItemOracle)) (st : St)
    (anim : Option Nat) (h : ∀ p ∈ items, p.2.cancelAt = none) :
    ((runPlaylist items st anim).outs.length = items.length
      ∧ (runPlaylist items st anim).aborted = false
      ∧ (∀ i (hi : i < items.length), goodItem (items.get ⟨i, hi⟩) →
          ((runPlaylist items st anim).outs.get? i
              = some (.done (items.get ⟨i, hi⟩).2.ref)
           ∨ ∃ r, (runPlaylist items st anim).outs.get? i = some (.doneCached r))))
    ∧ (∀ (e : Entry) (o : ItemOracle) (st' : St) (anim' : Option Nat) (k : ErrKind),
        (runItem e o st' anim').out = .failed k →
        ((runItem e o st' anim').evs.filter isReportErr).length = 1) :=
  ⟨runPlaylist_no_cancel items st anim h,
   fun e o st' anim' k hk => runItem_failed_one_report e o st' anim' k hk⟩

/-- **C3 witness.** A concrete 3-entry collection in which entry 2's
fetch raises: the theorem instantiates to show all 3 entries get an
outcome and entries 1 and 3 reach `Done`. -/
theorem playlist_failure_isolation_witness :
    (runPlaylist [(⟨false, true, "A", true⟩, ⟨true, none, false, true, false, false, "r1"⟩),
        (⟨false, true, "B", true⟩, ⟨true, none, true, false, false, false, "r2"⟩),
        (⟨false, true, "C", true⟩, ⟨true, none, false, true, false, false, "r3"⟩)]
      ⟨[], [], 0, []⟩ none).outs.length = 3
    ∧ ((runPlaylist [(⟨false, true, "A", true⟩, ⟨true, none, false, true, false, false, "r1"⟩),
        (⟨false, true, "B", true⟩, ⟨true, none, true, false, false, false, "r2"⟩),
        (⟨false, true, "C", true⟩, ⟨true, none, false, true, false, false, "r3"⟩)]
      ⟨[], [], 0, []⟩ none).outs.get? 2 = some (.done "r3")
      ∨ ∃ r, (runPlaylist [(⟨false, true, "A", true⟩, ⟨true, none, false, true, false, false, "r1"⟩),
        (⟨false, true, "B", true⟩, ⟨true, none, true, false, false, false, "r2"⟩),
        (⟨false, true, "C", true⟩, ⟨true, none, false, true, false, false, "r3"⟩)]
      ⟨[], [], 0, []⟩ none).outs.get? 2 = some (.doneCached r)) :=
  ⟨(playlist_failure_isolation _ ⟨[], [], 0, []⟩ none (by decide)).1.1,
   (playlist_failure_isolation _ ⟨[], [], 0, []⟩ none (by decide)).1.2.2 2 (by decide)
     (by decide)⟩

theorem db_ite (c : Prop) [Decidable c] (s1 s2 : St) :
    (if c then s1 else s2).db = if c then s1.db else s2.db := by
  split <;> rfl

@[simp] theorem fetch_not_mem_cancelEv (v : String) (r : Option Nat) :
    Ev.fetch v ∉ cancelEv r := by cases r <;> simp [cancelEv]

@[simp] theorem fetch_not_mem_rmEv (v : String) (st : St) (w : String) :
    Ev.fetch v ∉ rmEv st w := by unfold rmEv; split <;> simp

@[simp] theorem postProcess_not_mem_cancelEv (v : String) (r : Option Nat) :
    Ev.postProcess v ∉ cancelEv r := by cases r <;> simp [cancelEv]

@[simp] theorem postProcess_not_mem_rmEv (v : String) (st : St) (w : String) :
    Ev.postProcess v ∉ rmEv st w := by unfold rmEv; split <;> simp

set_option maxHeartbeats 1000000 in
theorem downloadSection_db (e : Entry) (o : ItemOracle) (st : St) (anim : Option Nat) :
    (downloadSection e o st anim).st.db = st.db
    ∨ (downloadSection e o st anim).st.db = add_data st.db e.vid o.ref := by
  unfold downloadSection
  simp only [st_ite, db_ite]
  repeat' split
  all_goals simp

set_option maxHeartbeats 1000000 in
theorem downloadSection_stage_vid (e : Entry) (o : ItemOracle) (st : St)
    (anim : Option Nat) (v : String)
    (hv : Ev.fetch v ∈ (downloadSection e o st anim).evs
      ∨ Ev.postProcess v ∈ (downloadSection e o st anim).evs) :
    v = e.vid := by
  revert hv
  unfold downloadSection
  simp only [evs_ite]
  repeat' split
  all_goals intro hv
  all_goals simp_all [List.mem_append]

set_option maxHeartbeats 1000000 in
theorem singleDownload_db (e : Entry) (o : ItemOracle) (st : St) (pre : List Ev) :
    (singleDownload e o st pre).st.db = st.db
    ∨ (singleDownload e o st pre).st.db = add_data st.db e.vid o.ref := by
  unfold singleDownload
  simp only [st_ite, db_ite]
  repeat' split
  all_goals simp

set_option maxHeartbeats 1000000 in
theorem singleDownload_stage_vid (e : Entry) (o : ItemOracle) (st : St) (pre : List Ev)
    (hpre : ∀ v, Ev.fetch v ∉ pre ∧ Ev.postProcess v ∉ pre) (v : String)
    (hv : Ev.fetch v ∈ (singleDownload e o st pre).evs
      ∨ Ev.postProcess v ∈ (singleDownload e o st pre).evs) :
    v = e.vid := by
  revert hv
  unfold singleDownload
  simp only [evs_ite]
  repeat' split
  all_goals intro hv
  all_goals simp_all [List.mem_append, (hpre v).1, (hpre v).2]

theorem runItem_cache_stable (e : Entry) (o : ItemOracle) (st : St) (anim : Option Nat)
    (X ref : String) (hcs : o.cachedSendOk = true)
    (hX : get_file_id st.db X = some ref) :
    get_file_id (runItem e o st anim).st.db X = some ref := by
  unfold runItem
  repeat' split
  all_goals first
    | exact hX
    | (show get_file_id (downloadSection e o st anim).st.db X = some ref
       rcases downloadSection_db e o st anim with h | h
       · rw [h]; exact hX
       · rw [h]; exact get_file_id_add_data_of_some hX e.vid o.ref)

theorem runItem_no_stage_for_cached (e : Entry) (o : ItemOracle) (st : St)
    (anim : Option Nat) (X ref : String) (hcs : o.cachedSendOk = true)
    (hX : get_file_id st.db X = some ref) :
    Ev.fetch X ∉ (runItem e o st anim).evs
    ∧ Ev.postProcess X ∉ (runItem e o st anim).evs := by
  unfold runItem
  repeat' split
  all_goals try simp
  all_goals
    (by_cases hvx : e.vid = X
     · subst hvx
       rename_i heq
       rw [hX] at heq
       cases heq
     · exact ⟨fun hm => hvx ((downloadSection_stage_vid e o st anim X (Or.inl hm)).symm),
        fun hm => hvx ((downloadSection_stage_vid e o st anim X (Or.inr hm)).symm)⟩)

theorem runItem_cache_hit (e : Entry) (o : ItemOracle) (st : St) (anim : Option Nat)
    (ref : String) (hn : e.isNull = false) (hu : e.hasUrl = true)
    (hcs : o.cachedSendOk = true) (hhit : get_file_id st.db e.vid = some ref) :
    runItem e o st anim = ⟨st, anim, .doneCached ref,
      [Ev.lookup e.vid (some ref), Ev.deliverCached e.vid ref true]⟩ := by
  unfold runItem
  rw [if_neg (by simp [hn]), if_neg (by simp [hu])]
  split
  · next ref2 heq =>
    rw [hhit] at heq
    cases heq
    rw [if_pos hcs]
  · next heq =>
    rw [hhit] at heq
    cases heq

theorem runPlaylist_cached (X ref : String) :
    ∀ (items : List (Entry × ItemOracle)),
    (∀ p ∈ items, p.2.cachedSendOk = true) →
    (∀ p ∈ items, p.2.cancelAt = none) →
    ∀ (st : St) (anim : Option Nat), get_file_id st.db X = some ref →
    get_file_id (runPlaylist items st anim).st.db X = some ref
    ∧ Ev.fetch X ∉ (runPlaylist items st anim).evs
    ∧ Ev.postProcess X ∉ (runPlaylist items st anim).evs
    ∧ (∀ i (hi : i < items.length),
        (items.get ⟨i, hi⟩).1.vid = X → (items.get ⟨i, hi⟩).1.isNull = false →
        (items.get ⟨i, hi⟩).1.hasUrl = true →
        (runPlaylist items st anim).outs.get? i = some (.doneCached ref)) := by
  intro items
  induction items with
  | nil =>
    intro _ _ st anim hX
    refine ⟨hX, by simp [runPlaylist], by simp [runPlaylist], ?_⟩
    intro i hi
    exact absurd hi (by simp)
  | cons p rest ih =>
    intro hall hnc st anim hX
    obtain ⟨e, o⟩ := p
    have hco : o.cachedSendOk = true := hall (e, o) (by simp)
    have hcn : o.cancelAt = none := hnc (e, o) (by simp)
    have hallr : ∀ q ∈ rest, q.2.cachedSendOk = true := fun q hq => hall q (by simp [hq])
    have hncr : ∀ q ∈ rest, q.2.cancelAt = none := fun q hq => hnc q (by simp [hq])
    have hstable := runItem_cache_stable e o st anim X ref hco hX
    have hns := runItem_no_stage_for_cached e o st anim X ref hco hX
    have hnotc := runItem_not_canceled e o st anim hcn
    obtain ⟨ih1, ih2, ih3, ih4⟩ :=
      ih hallr hncr (runItem e o st anim).st (runItem e o st anim).anim hstable
    simp only [runPlaylist]
    rw [if_neg hnotc]
    refine ⟨ih1, ?_, ?_, ?_⟩
    · intro hm
      rw [show ((⟨(runPlaylist rest (runItem e o st anim).st (runItem e o st anim).anim).st,
        (runPlaylist rest (runItem e o st anim).st (runItem e o st anim).anim).anim,
        (runItem e o st anim).out
          :: (runPlaylist rest (runItem e o st anim).st (runItem e o st anim).anim).outs,
        (runPlaylist rest (runItem e o st anim).st (runItem e o st anim).anim).aborted,
        (runItem e o st anim).evs
          ++ (runPlaylist rest (runItem e o st anim).st
              (runItem e o st anim).anim).evs⟩ : PlayRes)).evs
        = (runItem e o st anim).evs
          ++ (runPlaylist rest (runItem e o st anim).st
              (runItem e o st anim).anim).evs from rfl] at hm
      rw [List.mem_append] at hm
      rcases hm with hm | hm
      · exact hns.1 hm
      · exact ih2 hm
    · intro hm
      rw [show ((⟨(runPlaylist rest (runItem e o st anim).st (runItem e o st anim).anim).st,
        (runPlaylist rest (runItem e o st anim).st (runItem e o st anim).anim).anim,
        (runItem e o st anim).out
          :: (runPlaylist rest (runItem e o st anim).st (runItem e o st anim).anim).outs,
        (runPlaylist rest (runItem e o st anim).st (runItem e o st anim).anim).aborted,
        (runItem e o st anim).evs
          ++ (runPlaylist rest (runItem e o st anim).st
              (runItem e o st anim).anim).evs⟩ : PlayRes)).evs
        = (runItem e o st anim).evs
          ++ (runPlaylist rest (runItem e o st anim).st
              (runItem e o st anim).anim).evs from rfl] at hm
      rw [List.mem_append] at hm
      rcases hm with hm | hm
      · exact hns.2 hm
      · exact ih3 hm
    · intro i hi hvx hnn hurl
      match i with
      | 0 =>
        have hhit : get_file_id st.db e.vid = some ref := by
          rw [show (((e, o) :: rest).get ⟨0, hi⟩).1.vid = e.vid from rfl] at hvx
          rw [hvx]
          exact hX
        have := runItem_cache_hit e o st anim ref
          (by simpa using hnn) (by simpa using hurl) hco hhit
        simp [this]
      | Nat.succ j =>
        have hj : j < rest.length := by simpa using hi
        have := ih4 j hj (by simpa using hvx) (by simpa using hnn) (by simpa using hurl)
        simpa using this

set_option maxHeartbeats 1000000 in
theorem singleDownload_good (e : Entry) (o : ItemOracle) (st : St) (pre : List Ev)
    (ht : e.hasThumb = true) (hf : o.fetchRaises = false) (hcf : o.fetchCreatesFile = true)
    (hp : o.processRaises = false) (hd : o.deliverRaises = false) (hca : o.cancelAt = none) :
    (singleDownload e o st pre).st.db = add_data st.db e.vid o.ref
    ∧ (singleDownload e o st pre).out = .done o.ref := by
  unfold singleDownload
  simp only [st_ite, db_ite, out_ite]
  repeat' split
  all_goals simp_all [List.mem_append]

theorem runSingle_miss_good (e : Entry) (o : ItemOracle) (st : St)
    (hmiss : get_file_id st.db e.vid = none)
    (ht : e.hasThumb = true) (hf : o.fetchRaises = false) (hcf : o.fetchCreatesFile = true)
    (hp : o.processRaises = false) (hd : o.deliverRaises = false) (hca : o.cancelAt = none) :
    (runSingle e o st).st.db = add_data st.db e.vid o.ref
    ∧ (runSingle e o st).out = .done o.ref := by
  unfold runSingle
  split
  · next ref2 heq =>
    rw [hmiss] at heq
    cases heq
  · exact singleDownload_good e o st _ ht hf hcf hp hd hca

theorem runSingle_hit (e : Entry) (o : ItemOracle) (st : St) (ref : String)
    (hhit : get_file_id st.db e.vid = some ref) (hcs : o.cachedSendOk = true) :
    runSingle e o st = ⟨st, none, .doneCached ref,
      [Ev.lookup e.vid (some ref), Ev.deliverCached e.vid ref true]⟩ := by
  unfold runSingle
  split
  · next ref2 heq =>
    rw [hhit] at heq
    cases heq
    rw [if_pos hcs]
  · next heq =>
    rw [hhit] at heq
    cases heq

theorem runJob_ok_single (e : Entry) (o : ItemOracle) (st : St) (anim0 : Option Nat) :
    runJob ⟨false, false⟩ (.single e o) st anim0 =
      ⟨(runSingle e o (cancelSt st anim0)).st,
       .singleFinished (runSingle e o (cancelSt st anim0)).out,
       ([Ev.acquire, Ev.probe true] ++ cancelEv anim0)
         ++ (runSingle e o (cancelSt st anim0)).evs ++ [Ev.release]⟩ := rfl

/-- **C2.** Round trip through the cache. After a successful fresh
delivery of `content_id = e.vid` (lines 624-636: `send_audio` then
`db.add_data`), the stored reference is readable back; a later single
request for the same id is answered through `send_cached_audio` with
exactly that `file_id`, with no `fetch` and no `postProcess` event
(lines 563-567); and in any collection whose items' cached sends
succeed and which is not cancelled, every entry carrying that id is
likewise served from the cache (lines 421-429), while the cached row
survives the whole playlist run. -/
theorem cache_roundtrip
    (e : Entry) (o1 : ItemOracle) (db : Db) (fs : List String)
    (hn : e.isNull = false) (hu : e.hasUrl = true) (ht : e.hasThumb = true)
    (hf : o1.fetchRaises = false) (hcf : o1.fetchCreatesFile = true)
    (hp : o1.processRaises = false) (hd : o1.deliverRaises = false)
    (hca : o1.cancelAt = none) (hmiss : get_file_id db e.vid = none) :
    get_file_id (runMain ⟨false, false⟩ (.single e o1) db fs).st.db e.vid = some o1.ref
    ∧ (∀ (o2 : ItemOracle) (fs2 : List String), o2.cachedSendOk = true →
        (runMain ⟨false, false⟩ (.single e o2)
            (runMain ⟨false, false⟩ (.single e o1) db fs).st.db fs2).out
          = .singleFinished (.doneCached o1.ref)
        ∧ Ev.fetch e.vid ∉ (runMain ⟨false, false⟩ (.single e o2)
            (runMain ⟨false, false⟩ (.single e o1) db fs).st.db fs2).evs
        ∧ Ev.postProcess e.vid ∉ (runMain ⟨false, false⟩ (.single e o2)
            (runMain ⟨false, false⟩ (.single e o1) db fs).st.db fs2).evs
        ∧ Ev.deliverCached e.vid o1.ref true ∈ (runMain ⟨false, false⟩ (.single e o2)
            (runMain ⟨false, false⟩ (.single e o1) db fs).st.db fs2).evs)
    ∧ (∀ (X ref : String) (items : List (Entry × ItemOracle)) (st : St)
          (anim : Option Nat),
        (∀ p ∈ items, p.2.cachedSendOk = true) →
        (∀ p ∈ items, p.2.cancelAt = none) →
        get_file_id st.db X = some ref →
        Ev.fetch X ∉ (runPlaylist items st anim).evs
        ∧ Ev.postProcess X ∉ (runPlaylist items st anim).evs
        ∧ get_file_id (runPlaylist items st anim).st.db X = some ref
        ∧ (∀ i (hi : i < items.length),
            (items.get ⟨i, hi⟩).1.vid = X → (items.get ⟨i, hi⟩).1.isNull = false →
            (items.get ⟨i, hi⟩).1.hasUrl = true →
            (runPlaylist items st anim).outs.get? i = some (.doneCached ref))) := by
  have hdb1 : (runMain ⟨false, false⟩ (.single e o1) db fs).st.db
      = add_data db e.vid o1.ref := by
    show (runJob ⟨false, false⟩ (.single e o1) (bumpRep ⟨db, fs, 0, []⟩) (some 0)).st.db
      = add_data db e.vid o1.ref
    rw [runJob_ok_single]
    have := runSingle_miss_good e o1 (cancelSt (bumpRep ⟨db, fs, 0, []⟩) (some 0))
      (by simpa using hmiss) ht hf hcf hp hd hca
    simpa using this.1
  have hA : get_file_id (runMain ⟨false, false⟩ (.single e o1) db fs).st.db e.vid
      = some o1.ref := by
    rw [hdb1, add_data_first_write_wins, hmiss]
    rfl
  refine ⟨hA, ?_, ?_⟩
  · intro o2 fs2 hcs2
    have hhit : get_file_id (cancelSt (bumpRep
        ⟨(runMain ⟨false, false⟩ (.single e o1) db fs).st.db, fs2, 0, []⟩) (some 0)).db
        e.vid = some o1.ref := by
      simpa using hA
    have hsr := runSingle_hit e o2 (cancelSt (bumpRep
      ⟨(runMain ⟨false, false⟩ (.single e o1) db fs).st.db, fs2, 0, []⟩) (some 0))
      o1.ref hhit hcs2
    constructor
    · show (runJob ⟨false, false⟩ (.single e o2) (bumpRep
        ⟨(runMain ⟨false, false⟩ (.single e o1) db fs).st.db, fs2, 0, []⟩) (some 0)).out
        = .singleFinished (.doneCached o1.ref)
      rw [runJob_ok_single, hsr]
    · have hevs : (runMain ⟨false, false⟩ (.single e o2)
          (runMain ⟨false, false⟩ (.single e o1) db fs).st.db fs2).evs
          = [Ev.startRep 0] ++ (([Ev.acquire, Ev.probe true] ++ cancelEv (some 0))
            ++ [Ev.lookup e.vid (some o1.ref), Ev.deliverCached e.vid o1.ref true]
            ++ [Ev.release]) := by
        show [Ev.startRep 0] ++ (runJob ⟨false, false⟩ (.single e o2) (bumpRep
          ⟨(runMain ⟨false, false⟩ (.single e o1) db fs).st.db, fs2, 0, []⟩) (some 0)).evs
          = _
        rw [runJob_ok_single, hsr]
      rw [hevs]
      refine ⟨by simp [cancelEv], by simp [cancelEv], by simp⟩
  · intro X ref items st anim hall hnc hX
    obtain ⟨h1, h2, h3, h4⟩ := runPlaylist_cached X ref items hall hnc st anim hX
    exact ⟨h2, h3, h1, h4⟩

/-- **C2 witness.** The round trip at a concrete input: the first run of
a fresh single request for `"X"` stores `"r1"`; the repeat request is
answered `doneCached "r1"`. -/
theorem cache_roundtrip_witness :
    get_file_id (runMain ⟨false, false⟩ (.single ⟨false, true, "X", true⟩
        ⟨true, none, false, true, false, false, "r1"⟩) [] []).st.db "X" = some "r1"
    ∧ (runMain ⟨false, false⟩ (.single ⟨false, true, "X", true⟩
          ⟨true, none, false, true, false, false, "r1"⟩)
        (runMain ⟨false, false⟩ (.single ⟨false, true, "X", true⟩
          ⟨true, none, false, true, false, false, "r1"⟩) [] []).st.db []).out
      = .singleFinished (.doneCached "r1") :=
  ⟨(cache_roundtrip ⟨false, true, "X", true⟩ ⟨true, none, false, true, false, false, "r1"⟩
      [] [] rfl rfl rfl rfl rfl rfl rfl rfl rfl).1,
   ((cache_roundtrip ⟨false, true, "X", true⟩ ⟨true, none, false, true, false, false, "r1"⟩
      [] [] rfl rfl rfl rfl rfl rfl rfl rfl rfl).2.1
      ⟨true, none, false, true, false, false, "r1"⟩ [] rfl).1⟩

end MusicBot
